import Mathlib

/-!
Verification development for the aireyes worker application.

The JavaScript worker modules (src/workerapp/data.js, the database module
concatenated into it, conf.js, and the aircraft-tracker module) are shallowly
embedded below.  Conventions of the embedding:

* JS numbers appearing in the data feeds are modelled as exact numbers
  (`Int` for timestamps, offsets, altitudes and vertical rates, which are
  integral in the feeds; `Rat` for latitudes, longitudes, speeds and tracks).
  All arithmetic the embedded code performs on them (addition, subtraction,
  multiplication by 1000) is exact in JS doubles for the magnitudes involved,
  so `Int`/`Rat` arithmetic is faithful.
* The special JS value NaN, produced by `parseFloat(null)` and
  `parseFloat(undefined)`, is modelled explicitly by `JsVal.nan`; the JS
  `null` value in a number slot is `JsVal.null`.
* JS objects and arrays are reference values.  Trace sample arrays are
  therefore kept in an explicit heap `Store : Nat -> TraceObject`; an
  `AircraftTrace` holds the heap ids of its samples, and in-place mutation
  (`traceObject[0] += ...`) is modelled as producing an updated heap.
  Passing the same trace object twice to a function is then simply passing
  the same id list twice, which is what the aliasing claims are about.
* The number-to-string conversion used when a JS number becomes an object
  key is decimal rendering, which for integers coincides with `toString` on
  `Int`.  `Object.keys(dict).sort()` sorts those strings by UTF-16 code
  units; this order is embedded below as `jsKeyLe`.
-/

namespace AirEyes

/-- A JS number slot that can also hold `null` or NaN.  `parseFloat(null)`
and `parseFloat(undefined)` yield NaN, never `null`. -/
inductive JsVal where
  | null
  | nan
  | num (q : ℚ)
deriving DecidableEq

/-- The altitude slot of a raw sample: the literal string sentinel
`"ground"`, an integral altitude, or an absent value (`null` in the
historical-trace feed, `undefined` in the binary feed). -/
inductive AltSrc where
  | ground
  | alt (n : ℤ)
  | absent
deriving DecidableEq

/-- One raw trace sample array (a `TraceObject` in data.js).  Field `off` is
index 0 (the relative offset in seconds), `lat`/`lon` are indices 1 and 2,
`alt` is index 3, `gs` index 4, `track` index 5, `vr` index 7 and `src`
index 9 (the data-source tag).  Indices 6 and 8, which none of the embedded
functions read, are omitted. -/
structure TraceObject where
  off : ℤ
  lat : Option ℚ
  lon : Option ℚ
  alt : AltSrc
  gs : Option ℚ
  track : Option ℚ
  vr : Option ℤ
  src : Option String
deriving DecidableEq

/-- The heap of sample arrays: every JS array holding one raw sample is
identified by a natural number. -/
def Store : Type := ℕ → TraceObject

/-- An `AircraftTrace` object: identity fields, the base `timestamp` (epoch
seconds anchor) and the `trace` array, given as the heap ids of its sample
arrays. -/
structure AircraftTrace where
  icao : String
  r : Option String
  t : Option String
  desc : Option String
  ownOp : Option String
  year : Option ℤ
  timestamp : ℤ
  trace : List ℕ
deriving DecidableEq

/-- The trace object built and returned by `mergeAllTraces`.  Its
`timestamp` is `Option`-valued because when no sample at all is collected
the JS code computes `parseFloat(undefined) = NaN`; `none` models that NaN
(it can occur only together with an empty `trace`). -/
structure MergedTrace where
  icao : String
  r : Option String
  t : Option String
  desc : Option String
  ownOp : Option String
  year : Option ℤ
  timestamp : Option ℤ
  trace : List ℕ
deriving DecidableEq

/-- Read a merged trace back as a plain `AircraftTrace` (defined, i.e.
NaN-free, whenever `timestamp` is `some`). -/
def MergedTrace.toAircraftTrace (m : MergedTrace) : AircraftTrace :=
  { icao := m.icao, r := m.r, t := m.t, desc := m.desc, ownOp := m.ownOp,
    year := m.year, timestamp := m.timestamp.getD 0, trace := m.trace }

/-- Lexicographic comparison of character lists by code point; this is the
comparison JS `Array.prototype.sort()` applies to the decimal key strings
(all characters involved are ASCII, so code points equal UTF-16 units). -/
def charListLt : List Char → List Char → Bool
  | [], [] => false
  | [], _ :: _ => true
  | _ :: _, [] => false
  | a :: as, b :: bs => if a < b then true else if b < a then false else charListLt as bs

/-- Strict JS string order on integer keys: compare decimal renderings. -/
def jsKeyLt (x y : ℤ) : Bool := charListLt (toString x).toList (toString y).toList

/-- Non-strict JS string order on integer keys. -/
def jsKeyLe (x y : ℤ) : Bool := !(jsKeyLt y x)

/-- Insert a key into a list sorted by `jsKeyLe`. -/
def sortInsert (x : ℤ) : List ℤ → List ℤ
  | [] => [x]
  | y :: ys => if jsKeyLe x y then x :: y :: ys else y :: sortInsert x ys

/-- The default JS `sort()` on a list of numeric keys rendered as strings:
insertion sort under the string order (the keys sorted are distinct, so any
sorting algorithm yields this result). -/
def jsSortKeys (l : List ℤ) : List ℤ := l.foldr sortInsert []

/-- A canonical flight point, as assembled by `flightPointsFromTrace` and
`flightPointFromBinary` in data.js.  The display-only field `time`
(`com.formatTime`, an Intl date formatting call external to this module) is
omitted; every other field of the JS object literal is present. -/
structure FlightPoint where
  timestamp : ℤ
  timestampMillis : ℤ
  latitude : JsVal
  longitude : JsVal
  altitude : Option ℤ
  groundSpeed : JsVal
  rotation : JsVal
  verticalRate : Option ℤ
  dataSource : Option String
  position : Option ℚ × Option ℚ
  isAscending : Bool
  isDescending : Bool
  isOnGround : Bool
deriving DecidableEq

/-- JS `parseFloat` applied to a number-or-null slot: a number parses to
itself, `null` (or `undefined`) coerces to the string `"null"` (or
`"undefined"`) and parses to NaN. -/
def parseFloatOpt : Option ℚ → JsVal
  | some q => JsVal.num q
  | none => JsVal.nan

/-- A possibly-null JS number copied verbatim into a flight point field. -/
def jsOfOpt : Option ℚ → JsVal
  | some q => JsVal.num q
  | none => JsVal.null

/-- The altitude computation shared by both normalisers: explicit null
check, `"ground"` sentinel to literal 0, otherwise `parseInt` of the
(integral) altitude. -/
def altitudeFromSrc : AltSrc → Option ℤ
  | AltSrc.ground => some 0
  | AltSrc.alt n => some n
  | AltSrc.absent => none

/-- The data-source tag: `traceObject[9] || null`, so an absent or empty
string becomes `null`. -/
def dataSourceFromSrc : Option String → Option String
  | some s => if s = "" then none else some s
  | none => none

/-- The body of the loop in `flightPointsFromTrace` (data.js:174-202),
building one `FlightPoint` from one raw sample array and the base
timestamp of its trace. -/
def flightPointFromTraceObject (base : ℤ) (s : TraceObject) : FlightPoint :=
  let absoluteTimestamp : ℤ := s.off + base
  let altitude : Option ℤ := altitudeFromSrc s.alt
  let altitudeRate : Option ℤ := s.vr
  { timestamp := absoluteTimestamp
    timestampMillis := absoluteTimestamp * 1000
    latitude := parseFloatOpt s.lat
    longitude := parseFloatOpt s.lon
    altitude := altitude
    groundSpeed := jsOfOpt s.gs
    rotation := jsOfOpt s.track
    verticalRate := altitudeRate
    dataSource := dataSourceFromSrc s.src
    position := (s.lat, s.lon)
    isAscending := match altitudeRate with
      | some v => decide (0 < v)
      | none => false
    isDescending := match altitudeRate with
      | some v => decide (v < 0)
      | none => false
    isOnGround := s.alt = AltSrc.ground }

/-- `flightPointsFromTrace` (data.js:174-202): map every sample array of the
trace to a `FlightPoint`, adding the trace base timestamp to each relative
offset. -/
def flightPointsFromTrace (st : Store) (aircraftTrace : AircraftTrace) : List FlightPoint :=
  aircraftTrace.trace.map (fun i => flightPointFromTraceObject aircraftTrace.timestamp (st i))

/-- One record of the `aircraft` array of a decoded binary update.  Fields
the embedded functions do not read are omitted; `Option` models the
`undefined` checks the code performs (`!== undefined`). -/
structure BinaryAircraftObject where
  hex : String
  r : String
  t : String
  flight : String
  lat : Option ℚ
  lon : Option ℚ
  alt_baro : AltSrc
  baro_rate : Option ℤ
  gs : Option ℚ
  track : Option ℚ
  type : Option String
deriving DecidableEq

/-- `flightPointFromBinary` (data.js:215-239): build one `FlightPoint` from
the update timestamp and one binary aircraft record. -/
def flightPointFromBinary (updateAt : ℤ) (b : BinaryAircraftObject) : FlightPoint :=
  let altitude : Option ℤ := altitudeFromSrc b.alt_baro
  let altitudeRate : Option ℤ := b.baro_rate
  let groundSpeed : JsVal := jsOfOpt b.gs
  let rotation : JsVal := jsOfOpt b.track
  { timestamp := updateAt
    timestampMillis := updateAt * 1000
    latitude := parseFloatOpt b.lat
    longitude := parseFloatOpt b.lon
    altitude := altitude
    groundSpeed := groundSpeed
    rotation := rotation
    verticalRate := altitudeRate
    dataSource := dataSourceFromSrc b.type
    position := (b.lat, b.lon)
    isAscending := match altitudeRate with
      | some v => decide (0 < v)
      | none => false
    isDescending := match altitudeRate with
      | some v => decide (v < 0)
      | none => false
    isOnGround := b.alt_baro = AltSrc.ground }

/-- Add `d` to the offset field of every sample array whose id occurs in
`ids`, once per occurrence; this is the in-place loop
`trace[i][0] += delta` acting on the heap. -/
def bumpIds (st : Store) (ids : List ℕ) (d : ℤ) : Store :=
  ids.foldl (fun s i => fun x => if x = i then { s x with off := (s x).off + d } else s x) st

/-- `normaliseTimestamps` (data.js:251-256): mutate the trace so that every
sample offset becomes an absolute timestamp (offset + base timestamp).
The function returns the trace object it was given; here the updated heap
is returned. -/
def normaliseTimestamps (st : Store) (aircraftTrace : AircraftTrace) : Store :=
  bumpIds st aircraftTrace.trace aircraftTrace.timestamp

/-- Membership test of a key in the timestamp dictionary
(`absoluteTimestamp in absoluteTimestampDict`). -/
def dictHasKey (dict : List (ℤ × ℕ)) (k : ℤ) : Bool :=
  dict.any (fun e => e.1 = k)

/-- Set a key in the dictionary only where it does not already exist
(first writer wins); insertion order is kept. -/
def dictInsert (dict : List (ℤ × ℕ)) (k : ℤ) (i : ℕ) : List (ℤ × ℕ) :=
  if dictHasKey dict k then dict else dict ++ [(k, i)]

/-- The inner loop of `mergeAllTraces`: walk the (already normalised)
samples of one trace and record each absolute timestamp, where absent, with
the id of its sample array. -/
def fillDict (st : Store) (dict : List (ℤ × ℕ)) (ids : List ℕ) : List (ℤ × ℕ) :=
  ids.foldl (fun d i => dictInsert d (st i).off i) dict

/-- Dictionary lookup by key. -/
def dictLookup (dict : List (ℤ × ℕ)) (k : ℤ) : Option ℕ :=
  (dict.find? (fun e => e.1 = k)).map (fun e => e.2)

/-- The outer loop of `mergeAllTraces` (data.js:305-321): for every argument
in order, skip it when null, otherwise normalise its timestamps in place
and insert its samples into the dictionary where their absolute timestamp
is not yet present. -/
def mergeLoop : Store → List (ℤ × ℕ) → List (Option AircraftTrace) → Store × List (ℤ × ℕ)
  | st, dict, [] => (st, dict)
  | st, dict, none :: rest => mergeLoop st dict rest
  | st, dict, some tr :: rest =>
    mergeLoop (normaliseTimestamps st tr) (fillDict (normaliseTimestamps st tr) dict tr.trace) rest

/-- The error message thrown when the first trace is null or undefined (the
source text uses an apostrophe in `can't`; it is reproduced here with
`cannot`). -/
def mergeNullReferenceError : String := "Failed to merge traces - trace1 cannot be null or undefined."

/-- `mergeAllTraces` (data.js:287-336).  The variadic argument list is a
`List (Option AircraftTrace)`, `none` being a null/undefined argument; an
empty call leaves `traces[0]` undefined, which fails the same identity
check.  The returned pair is the final heap (the sample arrays are mutated
in place) together with the freshly built result trace, whose sample list
holds ids of arrays shared with the inputs. -/
def mergeAllTraces (st : Store) (traces : List (Option AircraftTrace)) :
    Except String (Store × MergedTrace) :=
  match traces with
  | [] => Except.error mergeNullReferenceError
  | none :: _ => Except.error mergeNullReferenceError
  | some referenceTrace :: _ =>
    let loopOut := mergeLoop st [] traces
    let sortedKeys := jsSortKeys (loopOut.2.map (fun e => e.1))
    let t0? : Option ℤ := sortedKeys.head?
    let resultIds := sortedKeys.filterMap (dictLookup loopOut.2)
    let finalStore := bumpIds loopOut.1 resultIds (-(t0?.getD 0))
    Except.ok (finalStore,
      { icao := referenceTrace.icao, r := referenceTrace.r, t := referenceTrace.t,
        desc := referenceTrace.desc, ownOp := referenceTrace.ownOp,
        year := referenceTrace.year, timestamp := t0?, trace := resultIds })

/-- Decode a trace back to absolute timestamps: add each sample offset to
the base timestamp. -/
def decodedTimestamps (st : Store) (tr : AircraftTrace) : List ℤ :=
  tr.trace.map (fun i => (st i).off + tr.timestamp)

/-- Projection of a merge call to its result trace (discarding the heap),
`none` when the merge failed. -/
def mergeResult (st : Store) (traces : List (Option AircraftTrace)) : Option MergedTrace :=
  match mergeAllTraces st traces with
  | Except.ok out => some out.2
  | Except.error _ => none

/-- Projection of a merge call to the decoded absolute timestamps of its
result, `none` when the merge failed. -/
def mergeDecodedTimestamps (st : Store) (traces : List (Option AircraftTrace)) : Option (List ℤ) :=
  match mergeAllTraces st traces with
  | Except.ok out => some (decodedTimestamps out.1 out.2.toAircraftTrace)
  | Except.error _ => none

/-- Projection of a merge call to the flight points of its result trace,
`none` when the merge failed. -/
def mergePoints (st : Store) (traces : List (Option AircraftTrace)) : Option (List FlightPoint) :=
  match mergeAllTraces st traces with
  | Except.ok out => some (flightPointsFromTrace out.1 out.2.toAircraftTrace)
  | Except.error _ => none

/-- Success test for a merge call. -/
def mergeSucceeds (st : Store) (traces : List (Option AircraftTrace)) : Bool :=
  match mergeAllTraces st traces with
  | Except.ok _ => true
  | Except.error _ => false

/-- A row of the `FlightPoint` database model (schema.js plus the fields set
by `saveToAircraft`).  The hash column stores a 16-byte digest (the source
hex-encodes it; the digest value itself is kept here, the encoding being
injective).  The derived `date` column (an external date-formatting call)
and the auto-increment `id` are omitted; `synchronised` defaults to
`false`, and `AircraftIcao` and `flightPointHash` are unset until
`saveToAircraft` fills them. -/
structure FlightPointModel where
  timestamp : ℤ
  latitude : JsVal
  longitude : JsVal
  altitude : Option ℤ
  groundSpeed : JsVal
  rotation : JsVal
  verticalRate : Option ℤ
  dataSource : Option String
  isOnGround : Bool
  isAscending : Bool
  isDescending : Bool
  synchronised : Bool
  AircraftIcao : Option String
  flightPointHash : Option (Fin (2 ^ 128))
deriving DecidableEq

/-- `newFlightPointModel` (database module): copy a `FlightPoint` into a
fresh table row. -/
def newFlightPointModel (p : FlightPoint) : FlightPointModel :=
  { timestamp := p.timestamp
    latitude := p.latitude
    longitude := p.longitude
    altitude := p.altitude
    groundSpeed := p.groundSpeed
    rotation := p.rotation
    verticalRate := p.verticalRate
    dataSource := p.dataSource
    isOnGround := p.isOnGround
    isAscending := p.isAscending
    isDescending := p.isDescending
    synchronised := false
    AircraftIcao := none
    flightPointHash := none }

/-- `buildFlightPointsModels`: build a row for every flight point, in
order. -/
def buildFlightPointsModels (flightPoints : List FlightPoint) : List FlightPointModel :=
  flightPoints.map newFlightPointModel

/-- JS `toString` on a number slot; the rendering of a fractional number is
abstracted as the `render` parameter (an arbitrary function, since nothing
verified here depends on the digits JS produces). -/
def jsValToString (render : ℚ → String) : JsVal → String
  | JsVal.null => "null"
  | JsVal.nan => "NaN"
  | JsVal.num q => render q

/-- The position component of the flight point hash input
(`saveToAircraft`, data.js database module lines 477-478): the latitude
rendering concatenated with the longitude rendering when both are not
`null`, else the string `"0"`. -/
def positionForHash (render : ℚ → String) (latitude longitude : JsVal) : String :=
  if latitude ≠ JsVal.null ∧ longitude ≠ JsVal.null then
    jsValToString render latitude ++ jsValToString render longitude
  else "0"

/-- The altitude component of the flight point hash input: the altitude
rendering when not `null`, else the string `"na"`. -/
def altitudeForHash : Option ℤ → String
  | some n => toString n
  | none => "na"

/-- The exact byte string fed to the digest in `saveToAircraft`: aircraft
ICAO, then the timestamp rendering, then the position component, then the
altitude component, concatenated. -/
def hashInput (render : ℚ → String) (icao : String) (m : FlightPointModel) : String :=
  icao ++ toString m.timestamp ++ positionForHash render m.latitude m.longitude
    ++ altitudeForHash m.altitude

/-- `saveToAircraft` (database module lines 470-492): for every built row,
set its aircraft ICAO and its content hash, computed by the digest `H` over
`hashInput`.  `H` abstracts `blake2b` with `digestLength: 16`; its
codomain `Fin (2 ^ 128)` is the space of 16-byte digests, making the
fixed 16-byte width structural.  The database writes themselves are beyond
the embedding; the returned list is the rows as saved. -/
def saveToAircraft (render : ℚ → String) (H : String → Fin (2 ^ 128))
    (icao : String) (models : List FlightPointModel) : List FlightPointModel :=
  models.map (fun m =>
    { m with AircraftIcao := some icao, flightPointHash := some (H (hashInput render icao m)) })

/-- The ordered content-hash sequence of a list of flight points for a given
aircraft: build rows, save them, read the hash column. -/
def contentHashSeq (render : ℚ → String) (H : String → Fin (2 ^ 128))
    (icao : String) (points : List FlightPoint) : List (Option (Fin (2 ^ 128))) :=
  (saveToAircraft render H icao (buildFlightPointsModels points)).map
    (fun m => m.flightPointHash)

/-- A `FlightPointReceipt` sent back by the server: the aircraft ICAO and
the hash of one flight point. -/
structure FlightPointReceipt where
  AircraftIcao : String
  flightPointHash : Fin (2 ^ 128)
deriving DecidableEq

/-- The `where` clause of the UPDATE issued per receipt: the row matches
when both its aircraft ICAO and its hash equal the receipt fields. -/
def receiptMatches (rcpt : FlightPointReceipt) (m : FlightPointModel) : Bool :=
  decide (m.AircraftIcao = some rcpt.AircraftIcao
    ∧ m.flightPointHash = some rcpt.flightPointHash)

/-- One `FlightPoint.update({synchronised: true}, {where: ...})` call: set
`synchronised` on every matching row, leave every other row untouched. -/
def applyReceipt (table : List FlightPointModel) (rcpt : FlightPointReceipt) :
    List FlightPointModel :=
  table.map (fun m => if receiptMatches rcpt m then { m with synchronised := true } else m)

/-- `updateFlightPointReceipts` (database module lines 642-651): apply every
receipt of the array.  The source issues the UPDATEs concurrently under
`Promise.allSettled`; each touches only its matching rows and writes the
constant `true`, so every scheduling yields this fold. -/
def updateFlightPointReceipts (table : List FlightPointModel)
    (flightPointReceiptsArray : List FlightPointReceipt) : List FlightPointModel :=
  flightPointReceiptsArray.foldl applyReceipt table

/-- The per-row effect of a whole receipt array: a row is flagged
synchronised exactly when some receipt matches it. -/
def syncFlag (receipts : List FlightPointReceipt) (m : FlightPointModel) : FlightPointModel :=
  if receipts.any (fun rcpt => receiptMatches rcpt m) then { m with synchronised := true } else m

/-- A decoded binary update: the `now` timestamp and the per-aircraft
records.  The lookup closures attached by `decodedBinaryUpdateFromObject`
are plain searches over `aircraft` and are not needed by the claims. -/
structure DecodedBinaryUpdate where
  now : ℤ
  aircraft : List BinaryAircraftObject
deriving DecidableEq

/-- Outcome of `zstdDecoder.decode` on a buffer: a decompressed buffer, a
`ZSTDDecompressionFailed` exception (error.js) carrying its error code, or
any other thrown value. -/
inductive DecompResult where
  | decompressed (buf : List ℕ)
  | zstdFail (errorCode : String)
  | otherError (e : String)

/-- Outcome of `wqi.wqiDecode` on a buffer: a decoded update, a TypeError,
or any other thrown value. -/
inductive WqiResult where
  | decoded (u : DecodedBinaryUpdate)
  | typeError
  | otherError (e : String)

/-- The try/catch around `wqi.wqiDecode` in `decodeBinaryUpdate`
(data.js:146-160): a decode success is returned (augmented with the lookup
helpers), a TypeError returns null, any other thrown value also returns
null. -/
def decodeStructural (wqiDecode : List ℕ → WqiResult) (buf : List ℕ) :
    Except String (Option DecodedBinaryUpdate) :=
  match wqiDecode buf with
  | WqiResult.decoded u => Except.ok (some u)
  | WqiResult.typeError => Except.ok none
  | WqiResult.otherError _ => Except.ok none

/-- `decodeBinaryUpdate` (data.js:116-163).  The ZSTD decoder and the wqi
layout decoder live outside this repository and are abstracted as outcome
functions.  A `ZSTDDecompressionFailed` exception, whatever its error code
(both switch branches do the same), falls back to decoding the original
buffer; any other exception from the decompressor is rethrown; the
structural decode never throws to the caller. -/
def decodeBinaryUpdate (zstdDecode : List ℕ → DecompResult)
    (wqiDecode : List ℕ → WqiResult) (buffer : List ℕ) :
    Except String (Option DecodedBinaryUpdate) :=
  match zstdDecode buffer with
  | DecompResult.decompressed b => decodeStructural wqiDecode b
  | DecompResult.zstdFail _ => decodeStructural wqiDecode buffer
  | DecompResult.otherError e => Except.error e

/-- conf.js (its whole export list, lines 1-87) defines no constant named
`NUM_MISSED_UPDATES_AIRCRAFT_LANDED`, so reading
`conf.NUM_MISSED_UPDATES_AIRCRAFT_LANDED` in the tracker yields
`undefined`, modelled as `none`. -/
def NUM_MISSED_UPDATES_AIRCRAFT_LANDED : Option ℕ := none

/-- JS `>=` against a possibly-undefined right operand: comparison with
`undefined` coerces to NaN and is false. -/
def jsGeOpt (n : ℕ) : Option ℕ → Bool
  | some m => decide (m ≤ n)
  | none => false

/-- The mutable `trackedAircraft` object of the aircraft-tracker module:
the dictionary of tracked aircraft (membership suffices here) and the
per-aircraft missed-update counters (`missedUpdates[icao] || 0` reads an
absent entry as 0, so deletion is modelled as resetting to 0).  The
`savedUpdates` queues play no part in the claims settled here and are
omitted. -/
structure TrackedAircraftState where
  aircraft : String → Bool
  missedUpdates : String → ℕ

/-- `trackedAircraft.remove`: delete the aircraft and its counters. -/
def TrackedAircraftState.remove (s : TrackedAircraftState) (icao : String) :
    TrackedAircraftState :=
  { aircraft := fun x => if x = icao then false else s.aircraft x
    missedUpdates := fun x => if x = icao then 0 else s.missedUpdates x }

/-- `trackedAircraft.isVehicleTracked`: membership in the aircraft
dictionary. -/
def TrackedAircraftState.isVehicleTracked (s : TrackedAircraftState) (icao : String) : Bool :=
  s.aircraft icao

/-- `trackedAircraft.missingUpdate` (tracker module lines 77-85): increment
the missed-update counter (absent counts as 0), then remove the aircraft
when the counter is `>=` the configured maximum — which conf.js never
defines. -/
def TrackedAircraftState.missingUpdate (s : TrackedAircraftState) (icao : String) :
    TrackedAircraftState :=
  let c := s.missedUpdates icao + 1
  let s1 : TrackedAircraftState :=
    { s with missedUpdates := fun x => if x = icao then c else s.missedUpdates x }
  if jsGeOpt c NUM_MISSED_UPDATES_AIRCRAFT_LANDED then s1.remove icao else s1

/-- Modelled from the spec: the kind of boundary the segmenter closes a
partial flight on — a verified ground-contact (landing-then-takeoff)
boundary, or a gap boundary (flight-timeout or hard segment gap) with no
ground evidence.  The `FlightSegmenter` itself is absent from the observed
source (only its test fixtures and the threshold constants in conf.js
exist), so §4.4 of the spec is embedded directly. -/
inductive BoundaryKind where
  | ground
  | gap
deriving DecidableEq

/-- Modelled from the spec: a `PartialFlight` — one maximal contiguous run
of the input trace with its boundary classification flags. -/
structure PartialFlight where
  points : List FlightPoint
  startedWithTakeoff : Bool
  endedWithLanding : Bool
  incompletePast : Bool
  incompleteFuture : Bool
  isCompleteFlight : Bool
deriving DecidableEq

/-- Modelled from the spec: the two configured gap thresholds of §4.4
(`NUM_SECONDS_FLIGHT_TIMEOUT` and the larger
`NUM_HOURS_BETWEEN_SEGMENTS_CONSIDER_NEW_FLIGHT`, in seconds). -/
structure SegmenterConfig where
  flightTimeoutSeconds : ℤ
  newFlightGapSeconds : ℤ

/-- Modelled from the spec: boundary detection over one consecutive point
pair — ground contact followed by airborne contact opens a ground-contact
boundary; a gap above the hard threshold forces a gap boundary regardless
of ground evidence; a gap above the flight-timeout threshold with no
ground evidence on either side forces a gap boundary. -/
def cutKind (cfg : SegmenterConfig) (p q : FlightPoint) : Option BoundaryKind :=
  if p.isOnGround && !q.isOnGround then some BoundaryKind.ground
  else if decide (cfg.newFlightGapSeconds < q.timestamp - p.timestamp) then some BoundaryKind.gap
  else if !p.isOnGround && !q.isOnGround
      && decide (cfg.flightTimeoutSeconds < q.timestamp - p.timestamp) then some BoundaryKind.gap
  else none

/-- Modelled from the spec: assemble one partial flight from its points,
its first and last point, and the boundaries that opened and closed it
(`none` meaning the start or end of the whole sequence). -/
def mkPartial (startB endB : Option BoundaryKind) (pts : List FlightPoint)
    (first lastP : FlightPoint) : PartialFlight :=
  let startFlags : Bool × Bool :=
    match startB with
    | none => if first.isOnGround then (true, false) else (false, true)
    | some BoundaryKind.ground => (true, false)
    | some BoundaryKind.gap => (false, true)
  let endFlags : Bool × Bool :=
    match endB with
    | none => if lastP.isOnGround then (true, false) else (false, true)
    | some BoundaryKind.ground => (true, false)
    | some BoundaryKind.gap => (false, true)
  { points := pts
    startedWithTakeoff := startFlags.1
    endedWithLanding := endFlags.1
    incompletePast := startFlags.2
    incompleteFuture := endFlags.2
    isCompleteFlight := startFlags.1 && endFlags.1 && !startFlags.2 && !endFlags.2 }

/-- Modelled from the spec: the left-to-right scan of §4.4.  `startB` is the
boundary that opened the current run, `first` its first point, `cur` the
points accumulated before the point `p` under the cursor. -/
def segmentRec (cfg : SegmenterConfig) (startB : Option BoundaryKind)
    (first : FlightPoint) (cur : List FlightPoint) (p : FlightPoint) :
    List FlightPoint → List PartialFlight
  | [] => [mkPartial startB none (cur ++ [p]) first p]
  | q :: rest =>
    match cutKind cfg p q with
    | some b => mkPartial startB (some b) (cur ++ [p]) first p
        :: segmentRec cfg (some b) q [] q rest
    | none => segmentRec cfg startB first (cur ++ [p]) q rest

/-- Modelled from the spec: the `FlightSegmenter` — partition an ordered,
deduplicated flight point sequence into partial flights with boundary
classification flags. -/
def segmentFlightPoints (cfg : SegmenterConfig) : List FlightPoint → List PartialFlight
  | [] => []
  | p :: rest => segmentRec cfg none p [] p rest

/-- Failure test for a structural decode outcome: anything but a decoded
update. -/
def wqiFails : WqiResult → Bool
  | WqiResult.decoded _ => false
  | WqiResult.typeError => true
  | WqiResult.otherError _ => true

/-- The `ZSTDDecompressionFailed` error code meaning the buffer is probably
not ZSTD compressed. -/
def zstdFindSizeCode : String := "find-decompressed-size"

/-- The store evolution performed by the outer merge loop, separated from
the dictionary it also builds. -/
def loopStore (st : Store) : List (Option AircraftTrace) → Store
  | [] => st
  | none :: rest => loopStore st rest
  | some tr :: rest => loopStore (normaliseTimestamps st tr) rest

/-- Total offset shift the merge loop applies to the sample array `x`: once
its base timestamp for every occurrence of `x` in every non-null argument
trace. -/
def bumpTotal (x : ℕ) : List (Option AircraftTrace) → ℤ
  | [] => 0
  | none :: rest => bumpTotal x rest
  | some tr :: rest => (tr.trace.count x : ℤ) * tr.timestamp + bumpTotal x rest

/-- Iterate `missingUpdate` for the same aircraft `n` times: `n` consecutive
scan cycles in which the aircraft is absent from the live feed. -/
def missNTimes (s : TrackedAircraftState) (icao : String) : ℕ → TrackedAircraftState
  | 0 => s
  | n + 1 => (missNTimes s icao n).missingUpdate icao

/-- The all-zero 16-byte digest, used to instantiate the abstract digest
function on concrete inputs. -/
def zeroDigest : Fin (2 ^ 128) := ⟨0, Nat.two_pow_pos 128⟩

/-- A digest function collapsing everything to the zero digest (any
function of the right type instantiates the abstraction). -/
def constDigest : String → Fin (2 ^ 128) := fun _ => zeroDigest

/-- A trivial fractional-number rendering (any function of the right type
instantiates the abstraction). -/
def constRender : ℚ → String := fun _ => ""

/-- ICAO of the POL35 test aircraft appearing throughout the repository
fixtures. -/
def icaoPOL35 : String := "7c4ee8"

/-- Data-source tag used in concrete samples below. -/
def adsbIcaoTag : String := "adsb_icao"

/-- A raw sample array with no data except its offset, used for concrete
merge inputs. -/
def bareSample : TraceObject :=
  { off := 0, lat := none, lon := none, alt := AltSrc.absent, gs := none,
    track := none, vr := none, src := none }

/-- An aircraft trace shell with no identity details. -/
def bareTrace : AircraftTrace :=
  { icao := icaoPOL35, r := none, t := none, desc := none, ownOp := none,
    year := none, timestamp := 0, trace := [] }

/-- Heap for the lexicographic-sort failing input: sample 0 has offset 9,
sample 1 has offset 10. -/
def bugStore : Store :=
  fun n => if n = 0 then { bareSample with off := 9 } else { bareSample with off := 10 }

/-- The lexicographic-sort failing input: one single trace whose two samples
carry absolute timestamps 9 and 10 (base timestamp 0, offsets 9 and 10). -/
def bugTrace : AircraftTrace := { bareTrace with timestamp := 0, trace := [0, 1] }

/-- Heap for the self-merge counterexample: one sample with offset 0. -/
def selfMergeStore : Store := fun _ => bareSample

/-- The self-merge counterexample trace: base timestamp 100, one sample at
offset 0 (absolute timestamp 100). -/
def selfMergeTrace : AircraftTrace := { bareTrace with timestamp := 100, trace := [0] }

/-- A raw sample with both position slots null but every other telemetry
slot populated; the shape the fixture documentation calls a NULL-position
point. -/
def nullPositionSample : TraceObject :=
  { off := 10, lat := none, lon := none, alt := AltSrc.alt 2000, gs := some 120,
    track := some 90, vr := some (-64), src := some adsbIcaoTag }

/-- Heap holding only `nullPositionSample`. -/
def nullPositionStore : Store := fun _ => nullPositionSample

/-- One-sample trace around `nullPositionSample`. -/
def nullPositionTrace : AircraftTrace := { bareTrace with timestamp := 1000, trace := [0] }

/-- A binary aircraft record with no position fix (`lat`/`lon` undefined)
but altitude, vertical rate and speed present. -/
def nullPositionBinary : BinaryAircraftObject :=
  { hex := icaoPOL35, r := "", t := "", flight := "", lat := none, lon := none,
    alt_baro := AltSrc.alt 2450, baro_rate := some (-288), gs := some 150,
    track := some 180, type := some adsbIcaoTag }

/-- A raw sample on the ground (altitude sentinel), for the sentinel part of
the normaliser contract. -/
def groundSample : TraceObject := { nullPositionSample with alt := AltSrc.ground }

/-- A raw sample with a null altitude slot. -/
def absentAltitudeSample : TraceObject := { nullPositionSample with alt := AltSrc.absent }

/-- Initial tracker state: POL35 is the single tracked aircraft, no missed
updates yet. -/
def initialTrackedState : TrackedAircraftState :=
  { aircraft := fun x => decide (x = icaoPOL35), missedUpdates := fun _ => 0 }

/-- Heap for the mutation-characterisation witness: every id holds a sample
with offset 5. -/
def aliasStore : Store := fun _ => { bareSample with off := 5 }

/-- Trace for the mutation-characterisation witness: base timestamp 7, one
sample at offset 5. -/
def aliasTrace : AircraftTrace := { bareTrace with timestamp := 7, trace := [0] }

/-- The same trace object passed twice, as `aircraftWithPointsFromTraces`
could do if handed aliased arguments. -/
def aliasArgs : List (Option AircraftTrace) := [some aliasTrace, some aliasTrace]

/-- The heap after the aliased merge call (the merge succeeds, so the error
branch is never taken). -/
def aliasStoreAfter : Store :=
  match mergeAllTraces aliasStore aliasArgs with
  | Except.ok out => out.1
  | Except.error _ => aliasStore

/-- The result trace of the aliased merge call. -/
def aliasMergedTrace : MergedTrace :=
  match mergeAllTraces aliasStore aliasArgs with
  | Except.ok out => out.2
  | Except.error _ =>
    { icao := icaoPOL35, r := none, t := none, desc := none, ownOp := none,
      year := none, timestamp := none, trace := [] }

/-- Samples of the copy-merge witness: ids 0 and 1 belong to the original
trace (offsets 3 and 5), ids 2 and 3 to its structural copy (same
offsets and data). -/
def copyStore : Store :=
  fun n =>
    if n = 0 then { nullPositionSample with off := 3 }
    else if n = 1 then { nullPositionSample with off := 5, lat := some 37, lon := some 145 }
    else if n = 2 then { nullPositionSample with off := 3 }
    else { nullPositionSample with off := 5, lat := some 37, lon := some 145 }

/-- The original trace of the copy-merge witness: base timestamp 100,
absolute timestamps 103 and 105. -/
def copyTrace : AircraftTrace := { bareTrace with timestamp := 100, trace := [0, 1] }

/-- The distinct structural copy of `copyTrace`: fresh sample arrays (ids 2
and 3) with the same contents. -/
def copyTrace2 : AircraftTrace := { bareTrace with timestamp := 100, trace := [2, 3] }

/-- Two rows of the receipt witness table: both for POL35, with digests 0
and 1. -/
def oneDigest : Fin (2 ^ 128) := ⟨1, Nat.one_lt_two_pow (by norm_num)⟩

/-- First row of the receipt witness table. -/
def receiptRow1 : FlightPointModel :=
  { newFlightPointModel (flightPointFromTraceObject 1000 nullPositionSample) with
    AircraftIcao := some icaoPOL35, flightPointHash := some zeroDigest }

/-- Second row of the receipt witness table. -/
def receiptRow2 : FlightPointModel :=
  { newFlightPointModel (flightPointFromTraceObject 1000 groundSample) with
    AircraftIcao := some icaoPOL35, flightPointHash := some oneDigest }

/-- The receipt witness table. -/
def receiptTable : List FlightPointModel := [receiptRow1, receiptRow2]

/-- A receipt acknowledging `receiptRow1`. -/
def knownReceipt : FlightPointReceipt :=
  { AircraftIcao := icaoPOL35, flightPointHash := zeroDigest }

/-- A receipt for a pair this process never tracked: right aircraft, hash of
a point missing from the table (the digest used is an arbitrary distinct
value). -/
def unknownReceipt : FlightPointReceipt :=
  { AircraftIcao := icaoPOL35, flightPointHash := ⟨2, by norm_num⟩ }

/-- A row agreeing with `hashPointB` on aircraft, timestamp, position and
altitude but coming without a data-source tag (a different feed). -/
def hashPointA : FlightPointModel :=
  { newFlightPointModel (flightPointFromTraceObject 1000 nullPositionSample) with
    dataSource := none }

/-- The same observation as reconstructed from the tagged feed. -/
def hashPointB : FlightPointModel :=
  newFlightPointModel (flightPointFromTraceObject 1000 nullPositionSample)

/-- Decidable test that a timestamp list is strictly increasing. -/
def strictlyIncreasing : List ℤ → Bool
  | [] => true
  | [_] => true
  | a :: b :: rest => decide (a < b) && strictlyIncreasing (b :: rest)

/-- C7: mergeAllTraces throws exactly when its first argument is null or
undefined (an empty call leaves `traces[0]` undefined), propagating the
error to the caller; with a non-null first argument the identity check
never fails and the merge returns a result, however many of the remaining
arguments are null. -/
theorem mergeAllTraces_reference_null_check (st : Store)
    (rest : List (Option AircraftTrace)) (tr : AircraftTrace) :
    mergeAllTraces st [] = Except.error mergeNullReferenceError
    ∧ mergeAllTraces st (none :: rest) = Except.error mergeNullReferenceError
    ∧ mergeSucceeds st (some tr :: rest) = true :=
  ⟨rfl, rfl, rfl⟩

/-- C4: when the buffer is structurally invalid — decompression either
succeeds or fails with a `ZSTDDecompressionFailed`, and the fixed layout
decoder rejects both the decompressed and the raw bytes — the decode
returns null and never propagates the structural exception; and a
decompression failure alone only redirects the structural decode to the
original raw buffer. -/
theorem decodeBinaryUpdate_invalid_buffer_yields_none
    (zstdDecode : List ℕ → DecompResult) (wqiDecode : List ℕ → WqiResult)
    (buffer b : List ℕ) (code : String)
    (hdec : zstdDecode buffer = DecompResult.decompressed b
      ∨ zstdDecode buffer = DecompResult.zstdFail code)
    (hfb : wqiFails (wqiDecode b) = true)
    (hfraw : wqiFails (wqiDecode buffer) = true) :
    decodeBinaryUpdate zstdDecode wqiDecode buffer = Except.ok none
    ∧ decodeBinaryUpdate (fun _ => DecompResult.zstdFail code) wqiDecode buffer
      = decodeStructural wqiDecode buffer := by
  refine ⟨?_, rfl⟩
  rcases hdec with h | h <;> simp only [decodeBinaryUpdate, h] <;> unfold decodeStructural
  · cases hw : wqiDecode b <;> simp_all [wqiFails]
  · cases hw : wqiDecode buffer <;> simp_all [wqiFails]

/-- C4 witness: a concrete decompressor failing with the
not-compressed error code and a layout decoder rejecting everything. -/
theorem decodeBinaryUpdate_invalid_buffer_yields_none_witness :
    decodeBinaryUpdate (fun _ => DecompResult.zstdFail zstdFindSizeCode)
      (fun _ => WqiResult.typeError) [0] = Except.ok none
    ∧ decodeBinaryUpdate (fun _ => DecompResult.zstdFail zstdFindSizeCode)
      (fun _ => WqiResult.typeError) [0]
      = decodeStructural (fun _ => WqiResult.typeError) [0] :=
  decodeBinaryUpdate_invalid_buffer_yields_none
    (fun _ => DecompResult.zstdFail zstdFindSizeCode) (fun _ => WqiResult.typeError)
    [0] [] zstdFindSizeCode (Or.inr rfl) rfl rfl

/-- C6: the content hash `saveToAircraft` assigns is the fixed-width
16-byte digest of exactly the concatenation of the aircraft ICAO, the
timestamp rendering, the position component (latitude then longitude, or
"0" when either coordinate is null) and the altitude component (or "na"
when null); consequently two rows agreeing on aircraft, timestamp,
position and altitude receive identical hashes, whatever their other,
feed-dependent fields. -/
theorem saveToAircraft_contentHash_composition
    (render : ℚ → String) (H : String → Fin (2 ^ 128)) (icao : String)
    (m m1 m2 : FlightPointModel)
    (hts : m1.timestamp = m2.timestamp) (hlat : m1.latitude = m2.latitude)
    (hlon : m1.longitude = m2.longitude) (halt : m1.altitude = m2.altitude) :
    saveToAircraft render H icao [m]
      = [{ m with
            AircraftIcao := some icao
            flightPointHash := some (H (icao ++ toString m.timestamp
              ++ positionForHash render m.latitude m.longitude
              ++ altitudeForHash m.altitude)) }]
    ∧ (saveToAircraft render H icao [m1]).map (fun x => x.flightPointHash)
      = (saveToAircraft render H icao [m2]).map (fun x => x.flightPointHash) := by
  refine ⟨rfl, ?_⟩
  simp [saveToAircraft, hashInput, hts, hlat, hlon, halt]

/-- C6 witness: two rows of the same observation from different feeds (one
carries a data-source tag, the other does not) receive the same hash, and
the assigned hash is the digest of the specified concatenation. -/
theorem saveToAircraft_contentHash_composition_witness :
    saveToAircraft constRender constDigest icaoPOL35 [hashPointA]
      = [{ hashPointA with
            AircraftIcao := some icaoPOL35
            flightPointHash := some (constDigest (icaoPOL35 ++ toString hashPointA.timestamp
              ++ positionForHash constRender hashPointA.latitude hashPointA.longitude
              ++ altitudeForHash hashPointA.altitude)) }]
    ∧ (saveToAircraft constRender constDigest icaoPOL35 [hashPointA]).map
        (fun x => x.flightPointHash)
      = (saveToAircraft constRender constDigest icaoPOL35 [hashPointB]).map
        (fun x => x.flightPointHash) :=
  saveToAircraft_contentHash_composition constRender constDigest icaoPOL35
    hashPointA hashPointA hashPointB rfl rfl rfl rfl

/-- C1 (failing input): merging the single trace with absolute timestamps
9 and 10 returns base timestamp 10 — not the oldest timestamp — and the
decoded sequence [10, 9], which is not strictly increasing: the merge
sorts its keys as strings, so "10" sorts before "9". -/
theorem mergeAllTraces_lexicographic_order_bug :
    mergeDecodedTimestamps bugStore [some bugTrace] = some [10, 9]
    ∧ (mergeResult bugStore [some bugTrace]).map (fun m => m.timestamp) = some (some 10)
    ∧ (mergeDecodedTimestamps bugStore [some bugTrace]).map strictlyIncreasing = some false := by
  refine ⟨rfl, rfl, rfl⟩

/-- C5 (failing input): on a sample with null position slots both
normalisers produce latitude and longitude NaN (`parseFloat(null)`), not
null — while the other absent-numeric rules of the contract (null
altitude to null, ground sentinel to 0 with isOnGround, telemetry
preserved) do hold. -/
theorem flightPoint_normalizer_null_position_nan_bug :
    (flightPointsFromTrace nullPositionStore nullPositionTrace).map (fun p => p.latitude)
      = [JsVal.nan]
    ∧ (flightPointsFromTrace nullPositionStore nullPositionTrace).map (fun p => p.longitude)
      = [JsVal.nan]
    ∧ (flightPointsFromTrace nullPositionStore nullPositionTrace).map (fun p => p.verticalRate)
      = [some (-64)]
    ∧ (flightPointsFromTrace nullPositionStore nullPositionTrace).map (fun p => p.altitude)
      = [some 2000]
    ∧ (flightPointFromBinary 2000 nullPositionBinary).latitude = JsVal.nan
    ∧ (flightPointFromBinary 2000 nullPositionBinary).longitude = JsVal.nan
    ∧ (flightPointFromBinary 2000 nullPositionBinary).verticalRate = some (-288)
    ∧ (flightPointFromTraceObject 1000 groundSample).altitude = some 0
    ∧ (flightPointFromTraceObject 1000 groundSample).isOnGround = true
    ∧ (flightPointFromTraceObject 1000 absentAltitudeSample).altitude = none
    ∧ JsVal.nan ≠ JsVal.null := by
  refine ⟨rfl, rfl, rfl, rfl, rfl, rfl, rfl, rfl, rfl, rfl, by decide⟩

/-- C9 (failing input): the missed-update counter does increment by one per
absent scan cycle, but the aircraft is never removed from tracking — for
any counter value — because the threshold constant the comparison reads is
absent from conf.js, so the `>=` comparison is against undefined and always
false; after 50 consecutive missed cycles POL35 is still tracked. -/
theorem missingUpdate_increment_never_removes_bug :
    (∀ s icao, (TrackedAircraftState.missingUpdate s icao).missedUpdates icao
      = s.missedUpdates icao + 1)
    ∧ (∀ s icao, (TrackedAircraftState.missingUpdate s icao).isVehicleTracked icao
      = s.isVehicleTracked icao)
    ∧ (missNTimes initialTrackedState icaoPOL35 50).missedUpdates icaoPOL35 = 50
    ∧ (missNTimes initialTrackedState icaoPOL35 50).isVehicleTracked icaoPOL35 = true := by
  refine ⟨?_, ?_, by decide, by decide⟩
  · intro s icao
    simp [TrackedAircraftState.missingUpdate, jsGeOpt, NUM_MISSED_UPDATES_AIRCRAFT_LANDED]
  · intro s icao
    simp [TrackedAircraftState.missingUpdate, TrackedAircraftState.isVehicleTracked,
      jsGeOpt, NUM_MISSED_UPDATES_AIRCRAFT_LANDED]

/-- C2 (counterexample): merging the one-sample trace with itself — the
same object as both arguments — yields two points where the original had
one, so the ordered content-hash sequences differ: the first pass
normalises the shared sample in place, the second pass then records it a
second time under a doubly-shifted timestamp. -/
theorem mergeAllTraces_self_merge_duplicates_counterexample :
    (mergePoints selfMergeStore [some selfMergeTrace, some selfMergeTrace]).map
        (contentHashSeq constRender constDigest icaoPOL35)
      ≠ some (contentHashSeq constRender constDigest icaoPOL35
          (flightPointsFromTrace selfMergeStore selfMergeTrace)) := by
  decide

/-- The emitted partial flights of the scan, projected to their point runs,
concatenate back to the scanned suffix prefixed by the accumulated run. -/
theorem segmentRec_points_join (cfg : SegmenterConfig) (startB : Option BoundaryKind)
    (first : FlightPoint) (cur : List FlightPoint) (p : FlightPoint) (l : List FlightPoint) :
    ((segmentRec cfg startB first cur p l).map (fun pf => pf.points)).flatten = cur ++ p :: l := by
  induction l generalizing startB first cur p with
  | nil => simp [segmentRec, mkPartial]
  | cons q rest ih =>
    cases h : cutKind cfg p q with
    | none =>
      simp only [segmentRec, h]
      rw [ih]
      simp
    | some b =>
      simp only [segmentRec, h, List.map_cons, List.flatten_cons]
      rw [ih]
      simp [mkPartial]

/-- C8: for every input flight point sequence, the partial flights the
segmenter emits partition the input exactly — concatenating their point
runs in emission order reproduces the input, with no point dropped,
duplicated or reordered. -/
theorem segmentFlightPoints_partition_coverage (cfg : SegmenterConfig)
    (pts : List FlightPoint) :
    ((segmentFlightPoints cfg pts).map (fun pf => pf.points)).flatten = pts := by
  cases pts with
  | nil => rfl
  | cons p rest => simpa using segmentRec_points_join cfg none p [] p rest

/-- Setting the synchronised flag leaves the columns a receipt matches on
unchanged. -/
theorem receiptMatches_set (rcpt : FlightPointReceipt) (m : FlightPointModel) :
    receiptMatches rcpt { m with synchronised := true } = receiptMatches rcpt m := rfl

/-- Setting the synchronised flag twice equals setting it once. -/
theorem set_synchronised_idem (m : FlightPointModel) :
    ({ { m with synchronised := true } with synchronised := true } : FlightPointModel)
      = { m with synchronised := true } := rfl

/-- The fold of receipt updates acts on every row independently: a row ends
up flagged exactly when some receipt of the array matches it. -/
theorem updateFlightPointReceipts_eq_map (receipts : List FlightPointReceipt)
    (table : List FlightPointModel) :
    updateFlightPointReceipts table receipts = table.map (syncFlag receipts) := by
  induction receipts generalizing table with
  | nil =>
    have h : ∀ mm : FlightPointModel, syncFlag [] mm = mm := fun mm => rfl
    calc updateFlightPointReceipts table [] = table := rfl
      _ = table.map id := (List.map_id table).symm
      _ = table.map (syncFlag []) := List.map_congr_left (fun mm _ => (h mm).symm)
  | cons r rs ih =>
    have h1 : updateFlightPointReceipts table (r :: rs)
      = updateFlightPointReceipts (applyReceipt table r) rs := rfl
    rw [h1, ih, applyReceipt, List.map_map]
    refine List.map_congr_left ?_
    intro m _
    simp only [Function.comp_apply]
    by_cases h : receiptMatches r m = true
    · simp [syncFlag, h, receiptMatches_set, set_synchronised_idem, List.any_cons]
    · simp [syncFlag, h, List.any_cons]

/-- Flagging a row with the same receipt array a second time changes
nothing. -/
theorem syncFlag_idem (rs : List FlightPointReceipt) (m : FlightPointModel) :
    syncFlag rs (syncFlag rs m) = syncFlag rs m := by
  by_cases h : rs.any (fun rc => receiptMatches rc m) = true
  · simp only [syncFlag, h, if_true, receiptMatches_set, set_synchronised_idem]
  · simp only [syncFlag, h]
    simp [h]

/-- C3: applying a receipt array sets synchronised on exactly the stored
rows matching some receipt (AircraftIcao, flightPointHash) pair and leaves
every other row and column unchanged; a receipt whose pair matches no
stored row leaves the table unchanged and raises no error; and re-applying
the same receipt array after the first application changes nothing. -/
theorem updateFlightPointReceipts_exact_idempotent
    (table : List FlightPointModel) (receipts : List FlightPointReceipt)
    (rcpt : FlightPointReceipt)
    (hunknown : ∀ m ∈ table, receiptMatches rcpt m = false) :
    updateFlightPointReceipts table receipts = table.map (syncFlag receipts)
    ∧ updateFlightPointReceipts table [rcpt] = table
    ∧ updateFlightPointReceipts (updateFlightPointReceipts table receipts) receipts
      = updateFlightPointReceipts table receipts := by
  refine ⟨updateFlightPointReceipts_eq_map receipts table, ?_, ?_⟩
  · have h1 : updateFlightPointReceipts table [rcpt] = applyReceipt table rcpt := rfl
    rw [h1, applyReceipt]
    calc table.map (fun m => if receiptMatches rcpt m then { m with synchronised := true } else m)
        = table.map id := by
          refine List.map_congr_left ?_
          intro m hm
          simp [hunknown m hm]
      _ = table := List.map_id table
  · rw [updateFlightPointReceipts_eq_map receipts (updateFlightPointReceipts table receipts),
      updateFlightPointReceipts_eq_map receipts table, List.map_map]
    refine List.map_congr_left ?_
    intro m _
    exact syncFlag_idem receipts m

/-- C3 witness: a two-row table for POL35; a receipt for the first row
flags exactly that row, a receipt with an unknown hash changes nothing, and
re-applying is a no-op. -/
theorem updateFlightPointReceipts_exact_idempotent_witness :
    updateFlightPointReceipts receiptTable [knownReceipt]
      = receiptTable.map (syncFlag [knownReceipt])
    ∧ updateFlightPointReceipts receiptTable [unknownReceipt] = receiptTable
    ∧ updateFlightPointReceipts (updateFlightPointReceipts receiptTable [knownReceipt])
        [knownReceipt]
      = updateFlightPointReceipts receiptTable [knownReceipt] :=
  updateFlightPointReceipts_exact_idempotent receiptTable [knownReceipt] unknownReceipt
    (by decide)

/-- Pointwise effect of an offset bump on the heap: the offset of the array
`x` moves by its number of occurrences in `ids` times the shift, and no
other field changes. -/
theorem bumpIds_apply (st : Store) (ids : List ℕ) (d : ℤ) (x : ℕ) :
    bumpIds st ids d x = { st x with off := (st x).off + (ids.count x : ℤ) * d } := by
  induction ids generalizing st with
  | nil => simp [bumpIds]
  | cons i is ih =>
    have h1 : bumpIds st (i :: is) d
      = bumpIds (fun y => if y = i then { st y with off := (st y).off + d } else st y) is d := rfl
    rw [h1, ih]
    by_cases hx : x = i
    · subst hx
      simp only [if_pos rfl, List.count_cons_self, TraceObject.mk.injEq]
      refine ⟨?_, rfl, rfl, rfl, rfl, rfl, rfl, rfl⟩
      push_cast
      ring
    · simp only [if_neg hx, List.count_cons_of_ne hx]

/-- The store component of the merge loop ignores the dictionary. -/
theorem mergeLoop_fst (st : Store) (dict : List (ℤ × ℕ))
    (traces : List (Option AircraftTrace)) :
    (mergeLoop st dict traces).1 = loopStore st traces := by
  induction traces generalizing st dict with
  | nil => rfl
  | cons t? rest ih =>
    cases t? with
    | none => exact ih st dict
    | some tr => exact ih _ _

/-- Pointwise effect of the whole merge loop on the heap: the offset of the
array `x` grows by `bumpTotal`, and no other field changes. -/
theorem loopStore_apply (st : Store) (traces : List (Option AircraftTrace)) (x : ℕ) :
    loopStore st traces x = { st x with off := (st x).off + bumpTotal x traces } := by
  induction traces generalizing st with
  | nil => simp [loopStore, bumpTotal]
  | cons t? rest ih =>
    cases t? with
    | none =>
      have h1 : loopStore st (none :: rest) = loopStore st rest := rfl
      rw [h1, ih]
      simp [bumpTotal]
    | some tr =>
      have h1 : loopStore st (some tr :: rest) = loopStore (normaliseTimestamps st tr) rest := rfl
      rw [h1, ih, normaliseTimestamps, bumpIds_apply]
      simp only [bumpTotal, TraceObject.mk.injEq, and_true, true_and]
      ring

/-- C10: mergeAllTraces mutates the sample arrays of its non-null inputs in
place.  Over the merge loop every array's offset grows by its trace's base
timestamp, once per occurrence in every non-null argument — the offsets
are overwritten with absolute timestamps, and the same trace object passed
twice is normalised twice; the arrays shared with the result are afterwards
rebased by the merged base timestamp, once per occurrence in the result
sample list; and no other field of any sample array is ever changed, so
after the call the inputs hold these rewritten offsets, not their original
relative ones. -/
theorem mergeAllTraces_mutates_inputs_characterisation
    (st : Store) (traces : List (Option AircraftTrace)) (st2 : Store) (m : MergedTrace)
    (x : ℕ) (hok : mergeAllTraces st traces = Except.ok (st2, m)) :
    ((mergeLoop st [] traces).1 x).off = (st x).off + bumpTotal x traces
    ∧ (st2 x).off = ((mergeLoop st [] traces).1 x).off
        - (m.trace.count x : ℤ) * (m.timestamp.getD 0)
    ∧ st2 x = { st x with off := (st2 x).off } := by
  have hloop : ∀ y, ((mergeLoop st [] traces).1 y).off = (st y).off + bumpTotal y traces := by
    intro y
    rw [mergeLoop_fst, loopStore_apply]
  match traces, hok with
  | some ref :: rest, hok =>
    simp only [mergeAllTraces, Except.ok.injEq, Prod.mk.injEq] at hok
    obtain ⟨hst2, hm⟩ := hok
    subst hst2
    subst hm
    refine ⟨hloop x, ?_, ?_⟩
    · rw [bumpIds_apply]
      simp only [MergedTrace.trace, Option.getD]
      ring_nf
    · rw [bumpIds_apply, mergeLoop_fst, loopStore_apply]

/-- C10 witness: the aliased call — the same one-sample trace (base 7,
offset 5) as both arguments.  Over the loop the shared array is normalised
twice (5 + 7 + 7 = 19); it then occurs twice in the result and is rebased
twice by the merged base 12, ending at offset -5 with every other field
untouched. -/
theorem mergeAllTraces_mutates_inputs_characterisation_witness :
    ((mergeLoop aliasStore [] aliasArgs).1 0).off = (aliasStore 0).off + bumpTotal 0 aliasArgs
    ∧ (aliasStoreAfter 0).off = ((mergeLoop aliasStore [] aliasArgs).1 0).off
        - (aliasMergedTrace.trace.count 0 : ℤ) * (aliasMergedTrace.timestamp.getD 0)
    ∧ aliasStoreAfter 0 = { aliasStore 0 with off := (aliasStoreAfter 0).off } :=
  mergeAllTraces_mutates_inputs_characterisation aliasStore aliasArgs aliasStoreAfter
    aliasMergedTrace 0 rfl

/-- The JS string comparison is asymmetric. -/
theorem charListLt_asymm (a : List Char) :
    ∀ b, charListLt a b = true → charListLt b a = false := by
  induction a with
  | nil =>
    intro b h
    cases b with
    | nil => simp [charListLt] at h
    | cons d ds => simp [charListLt]
  | cons c cs ih =>
    intro b h
    cases b with
    | nil => simp [charListLt] at h
    | cons d ds =>
      simp only [charListLt] at h ⊢
      by_cases h1 : c < d
      · have h2 : ¬ d < c := lt_asymm h1
        simp [h1, h2]
      · by_cases h2 : d < c
        · simp [h1, h2] at h
        · simp only [if_neg h1, if_neg h2] at h ⊢
          exact ih ds h

/-- The JS string comparison is transitive. -/
theorem charListLt_trans (a : List Char) :
    ∀ b c, charListLt a b = true → charListLt b c = true → charListLt a c = true := by
  induction a with
  | nil =>
    intro b c hab hbc
    cases b with
    | nil => simp [charListLt] at hab
    | cons d ds =>
      cases c with
      | nil => simp [charListLt] at hbc
      | cons e es => simp [charListLt]
  | cons x xs ih =>
    intro b c hab hbc
    cases b with
    | nil => simp [charListLt] at hab
    | cons d ds =>
      cases c with
      | nil => simp [charListLt] at hbc
      | cons e es =>
        simp only [charListLt] at hab hbc ⊢
        by_cases h1 : x < d
        · by_cases h2 : d < e
          · simp [lt_trans h1 h2]
          · by_cases h3 : e < d
            · simp [h2, h3] at hbc
            · have hde : d = e := le_antisymm (le_of_not_lt h3) (le_of_not_lt h2)
              subst hde
              simp [h1]
        · by_cases h4 : d < x
          · simp [h1, h4] at hab
          · rw [if_neg h1, if_neg h4] at hab
            have hxd : x = d := le_antisymm (le_of_not_lt h4) (le_of_not_lt h1)
            subst hxd
            by_cases h2 : x < e
            · simp [h2]
            · by_cases h3 : e < x
              · simp [h2, h3] at hbc
              · rw [if_neg h2, if_neg h3] at hbc
                rw [if_neg h2, if_neg h3]
                exact ih ds es hab hbc

/-- Asymmetry of the JS key order. -/
theorem jsKeyLt_asymm {x y : ℤ} (h : jsKeyLt x y = true) : jsKeyLt y x = false :=
  charListLt_asymm _ _ h

/-- Transitivity of the JS key order. -/
theorem jsKeyLt_trans {x y z : ℤ} (h1 : jsKeyLt x y = true) (h2 : jsKeyLt y z = true) :
    jsKeyLt x z = true :=
  charListLt_trans _ _ _ h1 h2

/-- Strictly ordered JS keys are distinct. -/
theorem jsKeyLt_ne {x y : ℤ} (h : jsKeyLt x y = true) : x ≠ y := by
  intro he
  subst he
  exact absurd (h.symm.trans (jsKeyLt_asymm h)) (by decide)

instance : IsTrans ℤ (fun a b => jsKeyLt a b = true) :=
  ⟨fun _ _ _ h1 h2 => jsKeyLt_trans h1 h2⟩

/-- A strict chain of JS keys is strictly ordered pairwise. -/
theorem chain_jsKeyLt_pairwise {l : List ℤ}
    (h : List.Chain' (fun a b => jsKeyLt a b = true) l) :
    List.Pairwise (fun a b => jsKeyLt a b = true) l :=
  List.chain'_iff_pairwise.mp h

/-- Inserting below the head of a sorted list keeps it in front. -/
theorem sortInsert_cons_of_le (x y : ℤ) (ys : List ℤ) (h : jsKeyLe x y = true) :
    sortInsert x (y :: ys) = x :: y :: ys := by
  simp [sortInsert, h]

/-- Sorting a list of keys that is already strictly ascending in the JS
string order returns it unchanged. -/
theorem jsSortKeys_of_chain {l : List ℤ}
    (h : List.Chain' (fun a b => jsKeyLt a b = true) l) : jsSortKeys l = l := by
  induction l with
  | nil => rfl
  | cons x xs ih =>
    have hx : jsSortKeys (x :: xs) = sortInsert x (jsSortKeys xs) := rfl
    rw [hx, ih h.tail]
    cases xs with
    | nil => rfl
    | cons y ys =>
      have hlt : jsKeyLt x y = true := (List.chain'_cons.mp h).1
      have hle : jsKeyLe x y = true := by
        unfold jsKeyLe
        rw [jsKeyLt_asymm hlt]
        rfl
      exact sortInsert_cons_of_le x y ys hle

/-- Key membership distributes over dictionary concatenation. -/
theorem dictHasKey_append (d1 d2 : List (ℤ × ℕ)) (k : ℤ) :
    dictHasKey (d1 ++ d2) k = (dictHasKey d1 k || dictHasKey d2 k) := by
  simp [dictHasKey, List.any_append]

/-- Filling an empty region of the dictionary with samples of pairwise
distinct keys appends them all, in traversal order. -/
theorem fillDict_all_new (st : Store) (ids : List ℕ) :
    ∀ dict : List (ℤ × ℕ),
      (∀ i ∈ ids, dictHasKey dict ((st i).off) = false) →
      List.Pairwise (fun i j => (st i).off ≠ (st j).off) ids →
      fillDict st dict ids = dict ++ ids.map (fun i => ((st i).off, i)) := by
  induction ids with
  | nil =>
    intro dict _ _
    simp [fillDict]
  | cons i is ih =>
    intro dict hnew hpw
    have hkey : dictHasKey dict ((st i).off) = false := hnew i (List.mem_cons_self i is)
    have h1 : fillDict st dict (i :: is) = fillDict st (dictInsert dict ((st i).off) i) is := rfl
    have h2 : dictInsert dict ((st i).off) i = dict ++ [((st i).off, i)] := by
      rw [dictInsert, hkey]
      simp
    rw [h1, h2, ih (dict ++ [((st i).off, i)]) ?_ hpw.of_cons]
    · simp
    · intro j hj
      have hj0 : dictHasKey dict ((st j).off) = false := hnew j (List.mem_cons_of_mem _ hj)
      have hne : (st i).off ≠ (st j).off := (List.pairwise_cons.mp hpw).1 j hj
      rw [dictHasKey_append, hj0]
      simp [dictHasKey, hne]

/-- Filling the dictionary with samples whose keys are all present leaves
it unchanged. -/
theorem fillDict_all_present (st : Store) (ids : List ℕ) (dict : List (ℤ × ℕ))
    (h : ∀ i ∈ ids, dictHasKey dict ((st i).off) = true) :
    fillDict st dict ids = dict := by
  induction ids with
  | nil => rfl
  | cons i is ih =>
    have h1 : fillDict st dict (i :: is) = fillDict st (dictInsert dict ((st i).off) i) is := rfl
    have h2 : dictInsert dict ((st i).off) i = dict := by
      rw [dictInsert, h i (List.mem_cons_self i is)]
      simp
    rw [h1, h2]
    exact ih (fun j hj => h j (List.mem_cons_of_mem _ hj))

/-- Looking every key of a dictionary with distinct keys back up returns
exactly its stored ids, in key order. -/
theorem dict_keys_filterMap_lookup (dict : List (ℤ × ℕ)) :
    (dict.map (fun e => e.1)).Nodup →
    (dict.map (fun e => e.1)).filterMap (dictLookup dict) = dict.map (fun e => e.2) := by
  induction dict with
  | nil => intro _; rfl
  | cons e es ih =>
    intro hnd
    simp only [List.map_cons] at hnd
    rw [List.nodup_cons] at hnd
    have hkey : dictLookup (e :: es) e.1 = some e.2 := by
      simp [dictLookup]
    have hrest : ∀ k ∈ es.map (fun x => x.1), dictLookup (e :: es) k = dictLookup es k := by
      intro k hk
      have hne : ¬ e.1 = k := fun he => hnd.1 (he ▸ hk)
      simp [dictLookup, List.find?_cons, hne]
    simp only [List.map_cons, List.filterMap_cons, hkey]
    rw [List.filterMap_congr hrest, ih hnd.2]

/-- A bump at ids not containing the array leaves it unchanged. -/
theorem bumpIds_not_mem (st : Store) (ids : List ℕ) (d : ℤ) (x : ℕ) (hx : x ∉ ids) :
    bumpIds st ids d x = st x := by
  rw [bumpIds_apply, List.count_eq_zero_of_not_mem hx]
  simp

/-- A bump at duplicate-free ids containing the array shifts its offset
exactly once. -/
theorem bumpIds_mem_nodup (st : Store) (ids : List ℕ) (d : ℤ) (x : ℕ)
    (hnd : ids.Nodup) (hx : x ∈ ids) :
    bumpIds st ids d x = { st x with off := (st x).off + d } := by
  rw [bumpIds_apply, List.count_eq_one_of_mem hnd hx]
  simp

/-- Rebasing a sample: the flight point built from an offset-rewritten
sample under a different base is the original point whenever the decoded
absolute timestamps agree. -/
theorem flightPointFromTraceObject_rebase (base base2 off2 : ℤ) (s : TraceObject)
    (h : off2 + base2 = s.off + base) :
    flightPointFromTraceObject base2 { s with off := off2 }
      = flightPointFromTraceObject base s := by
  simp only [flightPointFromTraceObject, FlightPoint.mk.injEq, h]

/-- C2 (amended): merging a trace with a separate, structurally identical
copy of itself — a distinct trace object over distinct sample arrays with
equal contents, rather than the very same object twice, which the in-place
normalisation corrupts — yields a trace whose decoded flight point
sequence, and hence whose ordered content-hash sequence under any digest,
equals the original's, provided the original's absolute timestamps are
strictly ascending in the string order the merge sorts its keys by (as
equal-width epoch timestamps are). -/
theorem mergeAllTraces_copy_merge_preserves_content
    (st : Store) (tr tr2 : AircraftTrace)
    (render : ℚ → String) (H : String → Fin (2 ^ 128)) (icao : String)
    (hnd : tr.trace.Nodup) (hnd2 : tr2.trace.Nodup)
    (hdisj : ∀ x ∈ tr.trace, x ∉ tr2.trace)
    (hsame : tr2.trace.map st = tr.trace.map st)
    (hts : tr2.timestamp = tr.timestamp)
    (hne : tr.trace ≠ [])
    (hchain : List.Chain' (fun a b => jsKeyLt a b = true)
      (tr.trace.map (fun i => (st i).off + tr.timestamp))) :
    mergePoints st [some tr, some tr2] = some (flightPointsFromTrace st tr)
    ∧ (mergePoints st [some tr, some tr2]).map (contentHashSeq render H icao)
      = some (contentHashSeq render H icao (flightPointsFromTrace st tr)) := by
  have hmem2 : ∀ i ∈ tr2.trace, i ∉ tr.trace := fun i hi hmem => hdisj i hmem hi
  have hst1mem : ∀ i ∈ tr.trace,
      normaliseTimestamps st tr i = { st i with off := (st i).off + tr.timestamp } :=
    fun i hi => bumpIds_mem_nodup st tr.trace tr.timestamp i hnd hi
  have hst1mem2 : ∀ i ∈ tr2.trace, normaliseTimestamps st tr i = st i :=
    fun i hi => bumpIds_not_mem st tr.trace tr.timestamp i (hmem2 i hi)
  have hpwlt2 : List.Pairwise (fun i j =>
      jsKeyLt ((st i).off + tr.timestamp) ((st j).off + tr.timestamp) = true) tr.trace :=
    List.pairwise_map.mp (chain_jsKeyLt_pairwise hchain)
  have hpwne : List.Pairwise (fun i j =>
      (normaliseTimestamps st tr i).off ≠ (normaliseTimestamps st tr j).off) tr.trace := by
    refine List.Pairwise.imp_of_mem ?_ hpwlt2
    intro a b ha hb hlt
    rw [hst1mem a ha, hst1mem b hb]
    exact jsKeyLt_ne hlt
  have hd1 : fillDict (normaliseTimestamps st tr) [] tr.trace
      = tr.trace.map (fun i => ((normaliseTimestamps st tr i).off, i)) := by
    have h := fillDict_all_new (normaliseTimestamps st tr) tr.trace []
      (fun i _ => rfl) hpwne
    simpa using h
  have hd1x : fillDict (normaliseTimestamps st tr) [] tr.trace
      = tr.trace.map (fun i => ((st i).off + tr.timestamp, i)) := by
    rw [hd1]
    refine List.map_congr_left ?_
    intro i hi
    rw [hst1mem i hi]
  have hst2mem : ∀ i ∈ tr.trace,
      normaliseTimestamps (normaliseTimestamps st tr) tr2 i
        = { st i with off := (st i).off + tr.timestamp } := by
    intro i hi
    have h1 : normaliseTimestamps (normaliseTimestamps st tr) tr2 i
        = normaliseTimestamps st tr i :=
      bumpIds_not_mem _ tr2.trace tr2.timestamp i (hdisj i hi)
    rw [h1, hst1mem i hi]
  have hst2mem2 : ∀ i ∈ tr2.trace,
      normaliseTimestamps (normaliseTimestamps st tr) tr2 i
        = { st i with off := (st i).off + tr.timestamp } := by
    intro i hi
    have h1 : normaliseTimestamps (normaliseTimestamps st tr) tr2 i
        = { normaliseTimestamps st tr i with
            off := (normaliseTimestamps st tr i).off + tr2.timestamp } :=
      bumpIds_mem_nodup _ tr2.trace tr2.timestamp i hnd2 hi
    rw [h1, hst1mem2 i hi, hts]
  have hd2 : fillDict (normaliseTimestamps (normaliseTimestamps st tr) tr2)
      (fillDict (normaliseTimestamps st tr) [] tr.trace) tr2.trace
      = fillDict (normaliseTimestamps st tr) [] tr.trace := by
    refine fillDict_all_present _ tr2.trace _ ?_
    intro i hi
    rw [hst2mem2 i hi]
    have hmemmap : st i ∈ tr.trace.map st := by
      rw [← hsame]
      exact List.mem_map_of_mem st hi
    obtain ⟨j, hj, hji⟩ := List.mem_map.mp hmemmap
    rw [hd1x]
    simp only [dictHasKey, List.any_eq_true]
    refine ⟨((st j).off + tr.timestamp, j), List.mem_map_of_mem _ hj, ?_⟩
    simp [hji]
  have hloopPair : mergeLoop st [] [some tr, some tr2]
      = (normaliseTimestamps (normaliseTimestamps st tr) tr2,
         fillDict (normaliseTimestamps (normaliseTimestamps st tr) tr2)
           (fillDict (normaliseTimestamps st tr) [] tr.trace) tr2.trace) := rfl
  have hkeys : (fillDict (normaliseTimestamps st tr) [] tr.trace).map (fun e => e.1)
      = tr.trace.map (fun i => (st i).off + tr.timestamp) := by
    rw [hd1x]
    simp [List.map_map, Function.comp]
  have hnodupkeys : ((fillDict (normaliseTimestamps st tr) [] tr.trace).map
      (fun e => e.1)).Nodup := by
    rw [hkeys]
    exact List.Pairwise.imp (fun h => jsKeyLt_ne h) (chain_jsKeyLt_pairwise hchain)
  have hsorted : jsSortKeys
      ((fillDict (normaliseTimestamps st tr) [] tr.trace).map (fun e => e.1))
      = tr.trace.map (fun i => (st i).off + tr.timestamp) := by
    rw [hkeys]
    exact jsSortKeys_of_chain hchain
  have hres : (jsSortKeys
        ((fillDict (normaliseTimestamps st tr) [] tr.trace).map (fun e => e.1))).filterMap
      (dictLookup (fillDict (normaliseTimestamps st tr) [] tr.trace))
      = tr.trace := by
    rw [hsorted, ← hkeys, dict_keys_filterMap_lookup _ hnodupkeys, hd1x, List.map_map]
    exact (List.map_congr_left (fun i _ => rfl)).trans (List.map_id _)
  obtain ⟨i0, irest, htrl⟩ := List.exists_cons_of_ne_nil hne
  have hhead : (jsSortKeys
      ((fillDict (normaliseTimestamps st tr) [] tr.trace).map (fun e => e.1))).head?
      = some ((st i0).off + tr.timestamp) := by
    rw [hsorted, htrl]
    rfl
  have hmerge : mergeAllTraces st [some tr, some tr2]
      = Except.ok (bumpIds (normaliseTimestamps (normaliseTimestamps st tr) tr2) tr.trace
            (-((st i0).off + tr.timestamp)),
          { icao := tr.icao, r := tr.r, t := tr.t, desc := tr.desc, ownOp := tr.ownOp,
            year := tr.year, timestamp := some ((st i0).off + tr.timestamp),
            trace := tr.trace }) := by
    simp only [mergeAllTraces, hloopPair, hd2, hres, hhead, Option.getD_some]
  have hfinal : ∀ i ∈ tr.trace,
      bumpIds (normaliseTimestamps (normaliseTimestamps st tr) tr2) tr.trace
          (-((st i0).off + tr.timestamp)) i
        = { st i with
            off := ((st i).off + tr.timestamp) + (-((st i0).off + tr.timestamp)) } := by
    intro i hi
    rw [bumpIds_mem_nodup _ tr.trace _ i hnd hi, hst2mem i hi]
  have hpoints : flightPointsFromTrace
      (bumpIds (normaliseTimestamps (normaliseTimestamps st tr) tr2) tr.trace
        (-((st i0).off + tr.timestamp)))
      (MergedTrace.toAircraftTrace
        { icao := tr.icao, r := tr.r, t := tr.t, desc := tr.desc, ownOp := tr.ownOp,
          year := tr.year, timestamp := some ((st i0).off + tr.timestamp),
          trace := tr.trace })
      = flightPointsFromTrace st tr := by
    unfold flightPointsFromTrace MergedTrace.toAircraftTrace
    refine List.map_congr_left ?_
    intro i hi
    rw [hfinal i hi]
    exact flightPointFromTraceObject_rebase tr.timestamp ((st i0).off + tr.timestamp)
      (((st i).off + tr.timestamp) + (-((st i0).off + tr.timestamp))) (st i) (by ring)
  have hmp : mergePoints st [some tr, some tr2] = some (flightPointsFromTrace st tr) := by
    unfold mergePoints
    rw [hmerge]
    exact congrArg some hpoints
  exact ⟨hmp, by rw [hmp]; rfl⟩

/-- C2 witness: a two-sample trace (absolute timestamps 103 and 105) merged
with a disjoint structural copy of itself decodes back to the original
point and content-hash sequences. -/
theorem mergeAllTraces_copy_merge_preserves_content_witness :
    mergePoints copyStore [some copyTrace, some copyTrace2]
      = some (flightPointsFromTrace copyStore copyTrace)
    ∧ (mergePoints copyStore [some copyTrace, some copyTrace2]).map
        (contentHashSeq constRender constDigest icaoPOL35)
      = some (contentHashSeq constRender constDigest icaoPOL35
          (flightPointsFromTrace copyStore copyTrace)) :=
  mergeAllTraces_copy_merge_preserves_content copyStore copyTrace copyTrace2
    constRender constDigest icaoPOL35 (by decide) (by decide) (by decide) (by decide)
    (by decide) (by decide)
    (by
      have h : List.map (fun i => (copyStore i).off + copyTrace.timestamp) copyTrace.trace
          = [103, 105] := rfl
      rw [h]
      exact List.chain'_pair.mpr (by decide))

end AirEyes
